import Mathlib

/-!
Verification of the intent-classification and command-synthesis engine of the
gitflow repository (`src/services/nlp_service.py`), as a shallow embedding.

The embedding follows the Python source closely:
* `RE` / `reSearch` model the fragment of Python `re.search` used by the
  pattern table (word boundaries, literal words, alternation groups, `.*`).
* `commandPatterns` transcribes `NLPService.command_patterns` in declaration
  order (Python dicts preserve insertion order).
* `analyzeIntent`, `extractTarget`, the `generate*Commands` functions,
  `checkWarnings`, `generateAlternatives`, `generateExplanation` and
  `processUserQuery` transcribe the corresponding methods.  The two strings
  obtained from the external text-generation backend
  (`gpt_service.generate_git_response` and `gpt_service.generate_commit_message`)
  are passed in as opaque parameters `aiResponse` and `aiMessage`.

The data model (`RiskLevel`, `GitCommand`, `GitRepositoryState`, …) comes from
`src/models/git_models.py`.  Modelled from the spec: that module is not present
in the sources, so the record shapes follow spec §3 and the fields the service
code reads; Python `Optional` becomes `Option`, Python truthiness of a list is
non-emptiness, and the `ahead_behind` dict becomes an optional record.
-/

/-- Python `\w` (ASCII fragment): letters, digits and underscore. -/
def isWordChar (c : Char) : Bool := c.isAlphanum || c == '_'

/-- Python `\s` (ASCII fragment): the whitespace characters of `str.isspace`. -/
def isSpaceChar (c : Char) : Bool :=
  c == ' ' || c == '\t' || c == '\n' || c == '\r' || c == '\x0b' || c == '\x0c'

/-- ASCII lower-casing of one character, as Python `str.lower` does on ASCII. -/
def lowerChar (c : Char) : Char :=
  if 'A' ≤ c && c ≤ 'Z' then Char.ofNat (c.toNat + 32) else c

/-- Lower-case a character list (model of `query.lower()`). -/
def toLowerList (s : List Char) : List Char := s.map lowerChar

/-- The fragment of Python regular expressions used by the pattern
table: empty pattern, a literal character, a word boundary `\b`, `.*`,
alternation, and concatenation. -/
inductive RE where
  | eps : RE
  | lit : Char → RE
  | wordB : RE
  | anyStar : RE
  | alt : RE → RE → RE
  | seq : RE → RE → RE
deriving Repr, DecidableEq

/-- Is position `i` of `s` a word boundary (`\b`): exactly one of the adjacent
characters is a word character. -/
def isBoundaryAt (s : List Char) (i : Nat) : Bool :=
  let prev :=
    match i with
    | 0 => false
    | j + 1 => match s[j]? with
      | some c => isWordChar c
      | none => false
  let next :=
    match s[i]? with
    | some c => isWordChar c
    | none => false
  prev != next

/-- Length of the run of non-newline characters of `s` starting at `i`
(the furthest `.*` can reach, since `.` does not match a newline). -/
def dotRun (s : List Char) (i : Nat) : Nat :=
  ((s.drop i).takeWhile (fun c => c != '\n')).length

/-- All end positions of a match of `r` in `s` beginning at position `i`. -/
def ends : RE → List Char → Nat → List Nat
  | .eps, _, i => [i]
  | .lit c, s, i =>
    match s[i]? with
    | some c2 => if c2 == c then [i + 1] else []
    | none => []
  | .wordB, s, i => if isBoundaryAt s i then [i] else []
  | .anyStar, s, i => (List.range (dotRun s i + 1)).map (fun d => i + d)
  | .alt r1 r2, s, i => ends r1 s i ++ ends r2 s i
  | .seq r1 r2, s, i => (ends r1 s i).flatMap (fun j => ends r2 s j)

/-- Model of `re.search(r, s)`: does `r` match somewhere in `s`? -/
def reSearch (r : RE) (s : List Char) : Bool :=
  (List.range (s.length + 1)).any (fun i => !(ends r s i).isEmpty)

/-- The regex matching a literal string. -/
def strRE (w : String) : RE := (w.data.map RE.lit).foldr RE.seq RE.eps

/-- Concatenation of a list of regexes. -/
def catRE (rs : List RE) : RE := rs.foldr RE.seq RE.eps

/-- Alternation group of literal words, e.g. `(commit|save|record)`. -/
def wordAlt : List String → RE
  | [] => RE.eps
  | [w] => strRE w
  | w :: rest => RE.alt (strRE w) (wordAlt rest)

/-- The pattern `\bWORD\b`. -/
def bWord (w : String) : RE := catRE [RE.wordB, strRE w, RE.wordB]

/-- The pattern table of `NLPService.command_patterns`, in declaration order. -/
def commandPatterns : List (String × List RE) :=
  [ ("commit",
      [ catRE [RE.wordB, wordAlt ["commit", "save", "record"], RE.wordB,
               RE.anyStar, RE.wordB, wordAlt ["changes", "files", "work"], RE.wordB],
        bWord "commit",
        catRE [RE.wordB, strRE "save", RE.anyStar, strRE "changes", RE.wordB] ]),
    ("push",
      [ catRE [RE.wordB, wordAlt ["push", "upload", "send"], RE.wordB,
               RE.anyStar, RE.wordB, wordAlt ["remote", "origin", "upstream"], RE.wordB],
        bWord "push",
        catRE [RE.wordB, strRE "upload", RE.anyStar, strRE "changes", RE.wordB] ]),
    ("pull",
      [ catRE [RE.wordB, wordAlt ["pull", "fetch", "download", "get", "sync"], RE.wordB,
               RE.anyStar, RE.wordB, wordAlt ["changes", "updates", "remote"], RE.wordB],
        bWord "pull",
        catRE [RE.wordB, strRE "get", RE.anyStar, strRE "changes", RE.wordB] ]),
    ("branch",
      [ catRE [RE.wordB, wordAlt ["create", "make", "new"], RE.wordB,
               RE.anyStar, RE.wordB, strRE "branch", RE.wordB],
        catRE [RE.wordB, wordAlt ["switch", "change", "checkout"], RE.wordB,
               RE.anyStar, RE.wordB, strRE "branch", RE.wordB],
        bWord "branch" ]),
    ("merge",
      [ catRE [RE.wordB, strRE "merge", RE.wordB, RE.anyStar, RE.wordB, strRE "branch", RE.wordB],
        bWord "merge",
        catRE [RE.wordB, strRE "combine", RE.anyStar, strRE "branches", RE.wordB] ]),
    ("status",
      [ catRE [RE.wordB,
               RE.alt (strRE "status")
                 (RE.alt (strRE "state") (catRE [strRE "what", RE.anyStar, strRE "changed"])),
               RE.wordB],
        catRE [RE.wordB, strRE "check", RE.anyStar, strRE "status", RE.wordB],
        catRE [RE.wordB, strRE "what", RE.anyStar, strRE "files", RE.wordB] ]),
    ("undo",
      [ catRE [RE.wordB, wordAlt ["undo", "revert", "rollback", "reset"], RE.wordB],
        catRE [RE.wordB, strRE "undo", RE.anyStar, strRE "commit", RE.wordB],
        catRE [RE.wordB, strRE "go", RE.anyStar, strRE "back", RE.wordB] ]),
    ("stash",
      [ catRE [RE.wordB, wordAlt ["stash", "save", "store"], RE.wordB,
               RE.anyStar, RE.wordB, wordAlt ["changes", "work"], RE.wordB],
        bWord "stash",
        catRE [RE.wordB, strRE "temporary", RE.anyStar, strRE "save", RE.wordB] ]) ]

/-- Does a `(category, patterns)` entry have a pattern matching the
lower-cased query `ql`? -/
def catMatches (ql : List Char) (cp : String × List RE) : Bool :=
  cp.2.any (fun p => reSearch p ql)


/-- The fixed confidence constant for a matched action (`0.8` in the source). -/
def matchedConfidence : ℚ := 0.8

/-- The fixed fallback confidence constant (`0.5` in the source). -/
def fallbackConfidence : ℚ := 0.5

/-- Output of the classifier (the result dict of `_analyze_intent`). -/
structure Intent where
  action : String
  target : String
  confidence : ℚ
  raw_query : String
deriving Repr, DecidableEq

/-- Characters admitted by the target-extraction class: ASCII alphanumerics,
underscore, slash and hyphen. -/
def isBranchChar (c : Char) : Bool := c.isAlphanum || c == '_' || c == '/' || c == '-'

/-- A quote character (the class `["\x27]`). -/
def isQuote (c : Char) : Bool := c == '"' || c == '\x27'

/-- Try `KEYWORD\s+([cls]+)` anchored at the head of `s`; on success return the
(greedy) capture.  The character classes are disjoint from whitespace, so the
greedy match is deterministic, as in the Python regex. -/
def tryKeywordCapture (kw : List Char) (cls : Char → Bool) (s : List Char) :
    Option (List Char) :=
  if kw.isPrefixOf s then
    let rest := s.drop kw.length
    let ws := rest.takeWhile isSpaceChar
    if ws.isEmpty then none
    else
      let cap := (rest.drop ws.length).takeWhile cls
      if cap.isEmpty then none else some cap
  else none

/-- Model of `re.search(r"KEYWORD\s+([cls]+)", s).group(1)`: try every start
position left to right. -/
def scanKeywordCapture (kw : List Char) (cls : Char → Bool) :
    List Char → Option (List Char)
  | [] => none
  | c :: tail =>
    match tryKeywordCapture kw cls (c :: tail) with
    | some cap => some cap
    | none => scanKeywordCapture kw cls tail

/-- Try `message\s+["\x27]([^"\x27]+)["\x27]` anchored at the head of `s`;
on success return the capture. -/
def tryMessageCapture (s : List Char) : Option (List Char) :=
  if "message".data.isPrefixOf s then
    let rest := s.drop 7
    let ws := rest.takeWhile isSpaceChar
    if ws.isEmpty then none
    else
      match rest.drop ws.length with
      | q :: rest2 =>
        if isQuote q then
          let cap := rest2.takeWhile (fun c => !(isQuote c))
          if cap.isEmpty then none
          else
            match rest2.drop cap.length with
            | q2 :: _ => if isQuote q2 then some cap else none
            | [] => none
        else none
      | [] => none
  else none

/-- Model of `re.search(r"message\s+[quote]([^quotes]+)[quote]", s).group(1)`. -/
def scanMessageCapture : List Char → Option (List Char)
  | [] => none
  | c :: tail =>
    match tryMessageCapture (c :: tail) with
    | some cap => some cap
    | none => scanMessageCapture tail

/-- Model of `NLPService._extract_target`: action-specific extraction of the target
string from the query. -/
def extractTarget (query : String) (action : String) : String :=
  let ql := toLowerList query.data
  if action == "branch" then
    match scanKeywordCapture "branch".data isBranchChar ql with
    | some cap => String.mk cap
    | none => "new branch"
  else if action == "commit" then
    match scanMessageCapture query.data with
    | some cap => String.mk cap
    | none => "changes"
  else if action == "merge" then
    match scanKeywordCapture "merge".data isBranchChar ql with
    | some cap => String.mk cap
    | none => "branch"
  else "repository"

/-- Model of `NLPService._analyze_intent`: first category (in declaration order) with a
matching pattern wins; fall back to `help` when nothing matches. -/
def analyzeIntent (query : String) : Intent :=
  let ql := toLowerList query.data
  match commandPatterns.find? (catMatches ql) with
  | some cp =>
    { action := cp.1, target := extractTarget query cp.1,
      confidence := matchedConfidence, raw_query := query }
  | none =>
    { action := "help", target := "general",
      confidence := fallbackConfidence, raw_query := query }


/-- Risk tier of a command (`RiskLevel` in the data model). -/
inductive RiskLevel where
  | safe : RiskLevel
  | moderate : RiskLevel
  | destructive : RiskLevel
deriving Repr, DecidableEq

/-- One entry of `staged_files` / `unstaged_files`: a path plus a status tag. -/
structure FileStatus where
  path : String
  status : String
deriving Repr, DecidableEq

/-- Ahead/behind counts relative to the upstream (the `ahead_behind` dict). -/
structure AheadBehind where
  ahead : Nat
  behind : Nat
deriving Repr, DecidableEq

/-- Snapshot of the repository (`GitRepositoryState`). -/
structure GitRepositoryState where
  current_branch : String
  staged_files : List FileStatus
  unstaged_files : List FileStatus
  untracked_files : List String
  conflicted_files : Option (List String)
  is_clean : Bool
  ahead_behind : Option AheadBehind
  recent_commits : List String
deriving Repr, DecidableEq

/-- A recommended command (`GitCommand`). -/
structure GitCommand where
  command : String
  args : List String
  description : String
  risk_level : RiskLevel
  requires_confirmation : Bool
  explanation : Option String
deriving Repr, DecidableEq

/-- The value returned to the caller (`AssistantResponse`). -/
structure AssistantResponse where
  interpretation : String
  suggested_commands : List GitCommand
  explanation : String
  warnings : Option (List String)
  alternatives : Option (List GitCommand)
  confidence : ℚ
deriving Repr, DecidableEq

/-- Python substring containment `needle in hay` on character lists. -/
def isSubstringOf (needle : List Char) : List Char → Bool
  | [] => needle.isEmpty
  | c :: tail => needle.isPrefixOf (c :: tail) || isSubstringOf needle tail

/-- Python truthiness of `context.conflicted_files`: present and non-empty. -/
def conflictedNonempty (ctx : GitRepositoryState) : Bool :=
  match ctx.conflicted_files with
  | some fs => !fs.isEmpty
  | none => false

/-- Truthiness of `context.ahead_behind and context.ahead_behind.get("ahead", 0) > 0`. -/
def hasCommitsAhead (ctx : GitRepositoryState) : Bool :=
  match ctx.ahead_behind with
  | some ab => decide (0 < ab.ahead)
  | none => false

/-- The `ahead` count read in the plain-push branch (`ahead_behind["ahead"]`). -/
def aheadCount (ctx : GitRepositoryState) : Nat :=
  match ctx.ahead_behind with
  | some ab => ab.ahead
  | none => 0

/-- The "stage all" command of `_generate_commit_commands`. -/
def stageAllCommand : GitCommand :=
  { command := "git", args := ["add", "."],
    description := "Stage all changes for commit",
    risk_level := .safe, requires_confirmation := false,
    explanation := some "First, let\x27s stage your changes" }

/-- Model of `NLPService._generate_commit_commands`.  `aiMessage` is the string the
backend returns for `generate_commit_message` (opaque to the core). -/
def generateCommitCommands (ctx : GitRepositoryState) (target : String)
    (aiMessage : String) : List GitCommand :=
  (if ctx.staged_files.isEmpty &&
      (!ctx.unstaged_files.isEmpty || !ctx.untracked_files.isEmpty)
   then [stageAllCommand] else [])
  ++
  (if target != "changes" then
    [ { command := "git", args := ["commit", "-m", "\x22" ++ target ++ "\x22"],
        description := "Commit changes with message: " ++ target,
        risk_level := .safe, requires_confirmation := false,
        explanation := none } ]
  else if !ctx.staged_files.isEmpty || !ctx.unstaged_files.isEmpty then
    [ { command := "git", args := ["commit", "-m", "\x22" ++ aiMessage ++ "\x22"],
        description := "Commit with AI-generated message: " ++ aiMessage,
        risk_level := .safe, requires_confirmation := false,
        explanation := none } ]
  else [])

/-- The plain push emitted when commits are ahead of the upstream. -/
def plainPushCommand (ctx : GitRepositoryState) : GitCommand :=
  { command := "git", args := ["push"],
    description := "Push commits to remote repository",
    risk_level := .safe, requires_confirmation := false,
    explanation := some ("Push " ++ toString (aheadCount ctx) ++ " commit(s) to remote") }

/-- The upstream-setup push emitted for a first push of the branch. -/
def upstreamPushCommand (ctx : GitRepositoryState) : GitCommand :=
  { command := "git", args := ["push", "-u", "origin", ctx.current_branch],
    description := "Push current branch to remote (first time)",
    risk_level := .moderate, requires_confirmation := true,
    explanation := some "This will create the branch on the remote repository" }

/-- Model of `NLPService._generate_push_commands`. -/
def generatePushCommands (ctx : GitRepositoryState) : List GitCommand :=
  if hasCommitsAhead ctx then [plainPushCommand ctx]
  else [upstreamPushCommand ctx]

/-- Model of `NLPService._generate_pull_commands`. -/
def generatePullCommands (ctx : GitRepositoryState) : List GitCommand :=
  (if !ctx.is_clean then
    [ { command := "git", args := ["stash"],
        description := "Stash local changes before pulling",
        risk_level := .safe, requires_confirmation := true,
        explanation := some "Stash changes to avoid conflicts during pull" } ]
  else [])
  ++
  [ { command := "git", args := ["pull"],
      description := "Pull latest changes from remote",
      risk_level := .moderate, requires_confirmation := false,
      explanation := some "Fetch and merge changes from remote repository" } ]

/-- Model of `NLPService._generate_branch_commands`. -/
def generateBranchCommands (ctx : GitRepositoryState) (target : String)
    (query : String) : List GitCommand :=
  let ql := toLowerList query.data
  if isSubstringOf "create".data ql || isSubstringOf "new".data ql then
    let branch_name := if target != "new branch" then target else "feature/new-feature"
    [ { command := "git", args := ["checkout", "-b", branch_name],
        description := "Create and switch to new branch: " ++ branch_name,
        risk_level := .safe, requires_confirmation := false,
        explanation := none } ]
  else if isSubstringOf "switch".data ql || isSubstringOf "checkout".data ql then
    [ { command := "git", args := ["checkout", target],
        description := "Switch to branch: " ++ target,
        risk_level := .moderate, requires_confirmation := !ctx.is_clean,
        explanation := some "Switching branches with uncommitted changes may lose work" } ]
  else
    [ { command := "git", args := ["branch", "-a"],
        description := "List all branches",
        risk_level := .safe, requires_confirmation := false,
        explanation := none } ]

/-- Model of `NLPService._generate_merge_commands`. -/
def generateMergeCommands (ctx : GitRepositoryState) (target : String) :
    List GitCommand :=
  (if !ctx.is_clean then
    [ { command := "git", args := ["status"],
        description := "Check repository status before merge",
        risk_level := .safe, requires_confirmation := false,
        explanation := some "Clean working directory recommended before merge" } ]
  else [])
  ++
  [ { command := "git", args := ["merge", target],
      description := "Merge branch \x27" ++ target ++ "\x27 into current branch",
      risk_level := .moderate, requires_confirmation := true,
      explanation := some "This will combine changes from both branches" } ]

/-- Model of `NLPService._generate_status_commands`. -/
def generateStatusCommands (_ctx : GitRepositoryState) : List GitCommand :=
  [ { command := "git", args := ["status"],
      description := "Show repository status",
      risk_level := .safe, requires_confirmation := false,
      explanation := some "Display current state of your repository" } ]

/-- The hard reset emitted by `_generate_undo_commands`. -/
def hardResetCommand : GitCommand :=
  { command := "git", args := ["reset", "--hard", "HEAD~1"],
    description := "Undo last commit and discard changes",
    risk_level := .destructive, requires_confirmation := true,
    explanation := some "⚠️ This will permanently delete your changes!" }

/-- The soft reset emitted by `_generate_undo_commands`. -/
def softResetCommand : GitCommand :=
  { command := "git", args := ["reset", "--soft", "HEAD~1"],
    description := "Undo last commit but keep changes staged",
    risk_level := .moderate, requires_confirmation := true,
    explanation := some "This will undo the commit but preserve your changes" }

/-- Model of `NLPService._generate_undo_commands`. -/
def generateUndoCommands (_ctx : GitRepositoryState) (query : String) :
    List GitCommand :=
  let ql := toLowerList query.data
  if isSubstringOf "commit".data ql then
    if isSubstringOf "keep".data ql || isSubstringOf "save".data ql then
      [softResetCommand]
    else
      [hardResetCommand]
  else
    [ { command := "git", args := ["log", "--oneline", "-5"],
        description := "Show recent commits to choose what to undo",
        risk_level := .safe, requires_confirmation := false,
        explanation := none } ]

/-- The stash-push command of `_generate_stash_commands`. -/
def stashPushCommand : GitCommand :=
  { command := "git", args := ["stash", "push", "-m", "Work in progress"],
    description := "Stash current changes",
    risk_level := .safe, requires_confirmation := false,
    explanation := some "Temporarily save your changes" }

/-- Model of `NLPService._generate_stash_commands`. -/
def generateStashCommands (ctx : GitRepositoryState) : List GitCommand :=
  if !ctx.unstaged_files.isEmpty || !ctx.untracked_files.isEmpty then
    [stashPushCommand]
  else
    [ { command := "git", args := ["stash", "list"],
        description := "Show stashed changes",
        risk_level := .safe, requires_confirmation := false,
        explanation := none } ]

/-- The default help command of `_generate_commands`. -/
def helpCommand : GitCommand :=
  { command := "git", args := ["status"],
    description := "Show repository status",
    risk_level := .safe, requires_confirmation := false,
    explanation := some "Let\x27s start by checking your repository status" }

/-- Model of `NLPService._generate_commands`: dispatch on the classified action.
`aiResponse` mirrors the `ai_response` parameter (unused in the source body);
`aiMessage` is the backend reply used inside the commit rule. -/
def generateCommands (intent : Intent) (query : String)
    (ctx : GitRepositoryState) (_aiResponse aiMessage : String) :
    List GitCommand :=
  if intent.action == "commit" then generateCommitCommands ctx intent.target aiMessage
  else if intent.action == "push" then generatePushCommands ctx
  else if intent.action == "pull" then generatePullCommands ctx
  else if intent.action == "branch" then generateBranchCommands ctx intent.target query
  else if intent.action == "merge" then generateMergeCommands ctx intent.target
  else if intent.action == "status" then generateStatusCommands ctx
  else if intent.action == "undo" then generateUndoCommands ctx query
  else if intent.action == "stash" then generateStashCommands ctx
  else [helpCommand]

/-- Truthiness of the `destructive_commands` comprehension in `_check_warnings`. -/
def hasDestructiveCommand (commands : List GitCommand) : Bool :=
  !(commands.filter (fun cmd => cmd.risk_level == RiskLevel.destructive)).isEmpty

/-- Truthiness of the `push_commands` comprehension in `_check_warnings`:
a command whose `args` list contains the token `"push"`. -/
def hasPushCommand (commands : List GitCommand) : Bool :=
  !(commands.filter (fun cmd => cmd.args.contains "push")).isEmpty

/-- The data-loss warning string. -/
def destructiveWarning : String :=
  "⚠️ This operation will permanently delete data. Make sure you have backups."

/-- The uncommitted-changes advisory string. -/
def uncommittedWarning : String :=
  "💡 You have uncommitted changes. Consider committing them first."

/-- The unresolved-conflicts warning string. -/
def conflictsWarning : String :=
  "⚠️ You have unresolved merge conflicts. Resolve them before proceeding."

/-- Model of `NLPService._check_warnings`: returns `none` (Python `None`) when the
collected list is empty, mirroring `return warnings if warnings else None`. -/
def checkWarnings (commands : List GitCommand) (ctx : GitRepositoryState) :
    Option (List String) :=
  let warnings :=
    (if hasDestructiveCommand commands then [destructiveWarning] else [])
    ++ (if !ctx.is_clean && hasPushCommand commands then [uncommittedWarning] else [])
    ++ (if conflictedNonempty ctx then [conflictsWarning] else [])
  if warnings.isEmpty then none else some warnings

/-- The safer alternative derived for a hard reset in `_generate_alternatives`. -/
def softResetAlternative : GitCommand :=
  { command := "git", args := ["reset", "--soft", "HEAD~1"],
    description := "Safer option: Undo commit but keep changes",
    risk_level := .moderate, requires_confirmation := true,
    explanation := none }

/-- Model of `NLPService._generate_alternatives`: a soft-reset alternative for every
destructive command of the hard-reset shape; `None` when there is none. -/
def generateAlternatives (commands : List GitCommand)
    (_ctx : GitRepositoryState) : Option (List GitCommand) :=
  let alternatives := commands.flatMap (fun cmd =>
    if cmd.risk_level == RiskLevel.destructive &&
       cmd.args.contains "reset" && cmd.args.contains "--hard"
    then [softResetAlternative] else [])
  if alternatives.isEmpty then none else some alternatives

/-- Model of `NLPService._generate_explanation`. -/
def generateExplanation (intent : Intent) (_query : String)
    (ctx : GitRepositoryState) (aiResponse : String) : String :=
  let base :=
    if intent.action == "commit" then
      "I\x27ll help you commit your changes. You have " ++
        toString ctx.staged_files.length ++ " staged files and " ++
        toString ctx.unstaged_files.length ++ " modified files."
    else if intent.action == "push" then
      "I\x27ll help you push your changes to the remote repository."
    else if intent.action == "pull" then
      "I\x27ll help you pull the latest changes from the remote repository."
    else if intent.action == "branch" then
      "I\x27ll help you work with Git branches."
    else if intent.action == "merge" then
      "I\x27ll help you merge branches safely."
    else if intent.action == "status" then
      "I\x27ll show you the current status of your repository."
    else if intent.action == "undo" then
      "I\x27ll help you undo changes safely."
    else if intent.action == "stash" then
      "I\x27ll help you stash your current work."
    else "I\x27ll help you with that Git operation."
  if !aiResponse.isEmpty && aiResponse.length > 10 then
    base ++ " " ++ aiResponse
  else base

/-- Model of `NLPService.process_user_query` with the snapshot supplied by the caller
and the two backend replies passed as opaque strings. -/
def processUserQuery (query : String) (context : GitRepositoryState)
    (aiResponse aiMessage : String) : AssistantResponse :=
  let intent := analyzeIntent query
  let suggested := generateCommands intent query context aiResponse aiMessage
  { interpretation :=
      "I understand you want to " ++ intent.action ++ " " ++ intent.target,
    suggested_commands := suggested,
    explanation := generateExplanation intent query context aiResponse,
    warnings := checkWarnings suggested context,
    alternatives := generateAlternatives suggested context,
    confidence := intent.confidence }

/-- A clean snapshot used in concrete evaluations. -/
def cleanCtx : GitRepositoryState :=
  { current_branch := "main", staged_files := [], unstaged_files := [],
    untracked_files := [], conflicted_files := none, is_clean := true,
    ahead_behind := none, recent_commits := [] }

/-- A snapshot with one untracked file and a dirty tree. -/
def dirtyCtx : GitRepositoryState :=
  { current_branch := "main", staged_files := [],
    unstaged_files := [{ path := "a.txt", status := "modified" }],
    untracked_files := ["b.txt"], conflicted_files := none, is_clean := false,
    ahead_behind := none, recent_commits := [] }


/-- The categories (in declaration order) owning at least one pattern that
matches the query. -/
def matchedCategories (query : String) : List String :=
  (commandPatterns.filter (catMatches (toLowerList query.data))).map Prod.fst

/-- No pattern of any category matches the query. -/
def noPatternMatches (query : String) : Bool :=
  commandPatterns.all (fun cp => !(catMatches (toLowerList query.data) cp))

/-- The risk tier of a command together with its confirmation flag. -/
def riskSig (c : GitCommand) : RiskLevel × Bool :=
  (c.risk_level, c.requires_confirmation)

/-- The §3 invariant as a boolean predicate: a destructive command requires
confirmation. -/
def confirmedIfDestructive (c : GitCommand) : Bool :=
  !(c.risk_level == RiskLevel.destructive) || c.requires_confirmation



/-- Does every way of matching the regex consume at least one non-whitespace
character?  Every pattern of the table contains a mandatory literal word, so
this holds for all of them. -/
def needsNonSpace : RE → Bool
  | .eps => false
  | .lit c => !isSpaceChar c
  | .wordB => false
  | .anyStar => false
  | .alt r1 r2 => needsNonSpace r1 && needsNonSpace r2
  | .seq r1 r2 => needsNonSpace r1 || needsNonSpace r2

/-! ## Helper lemmas -/

theorem ends_needs_nonspace :
    ∀ r : RE, needsNonSpace r = true →
      ∀ (s : List Char) (i j : Nat), j ∈ ends r s i →
        ∃ (k : Nat) (c : Char), s[k]? = some c ∧ isSpaceChar c = false := by
  intro r
  induction r with
  | eps => intro hr; simp [needsNonSpace] at hr
  | lit c =>
    intro hr s i j hj
    simp only [needsNonSpace, Bool.not_eq_true'] at hr
    unfold ends at hj
    cases hs : s[i]? with
    | none => rw [hs] at hj; cases hj
    | some c2 =>
      rw [hs] at hj
      by_cases he : (c2 == c) = true
      · have hc2 : c2 = c := beq_iff_eq.mp he
        exact ⟨i, c2, hs, by rw [hc2]; exact hr⟩
      · simp [he] at hj
  | wordB => intro hr; simp [needsNonSpace] at hr
  | anyStar => intro hr; simp [needsNonSpace] at hr
  | alt r1 r2 ih1 ih2 =>
    intro hr s i j hj
    simp only [needsNonSpace, Bool.and_eq_true] at hr
    unfold ends at hj
    rcases List.mem_append.mp hj with hj | hj
    · exact ih1 hr.1 s i j hj
    · exact ih2 hr.2 s i j hj
  | seq r1 r2 ih1 ih2 =>
    intro hr s i j hj
    simp only [needsNonSpace, Bool.or_eq_true] at hr
    unfold ends at hj
    rcases List.mem_flatMap.mp hj with ⟨j2, hj2, hj3⟩
    rcases hr with hr | hr
    · exact ih1 hr s i j2 hj2
    · exact ih2 hr s j2 j hj3

theorem lowerChar_space (c : Char) (h : isSpaceChar c = true) :
    lowerChar c = c := by
  simp only [isSpaceChar, Bool.or_eq_true, beq_iff_eq] at h
  rcases h with ((((h | h) | h) | h) | h) | h <;> subst h <;> decide

theorem toLowerList_space (q : List Char) (h : q.all isSpaceChar = true) :
    (toLowerList q).all isSpaceChar = true := by
  rw [toLowerList, List.all_map]
  rw [List.all_eq_true] at h ⊢
  intro c hc
  have hs := h c hc
  simp only [Function.comp_apply, lowerChar_space c hs]
  exact hs

theorem commandPatterns_need_nonspace :
    commandPatterns.all (fun cp => cp.2.all needsNonSpace) = true := by decide

theorem whitespace_no_match (q : String)
    (h : q.data.all isSpaceChar = true) : noPatternMatches q = true := by
  rw [noPatternMatches, List.all_eq_true]
  intro cp hcp
  rw [Bool.not_eq_true']
  by_contra hc
  simp only [Bool.not_eq_false] at hc
  rcases List.any_eq_true.mp hc with ⟨p, hp, hsearch⟩
  rcases List.any_eq_true.mp hsearch with ⟨i, _, hne⟩
  have hnn : ends p (toLowerList q.data) i ≠ [] := by
    intro hnil
    rw [hnil] at hne
    cases hne
  have hj : ∃ j, j ∈ ends p (toLowerList q.data) i := by
    cases hcase : ends p (toLowerList q.data) i with
    | nil => exact absurd hcase hnn
    | cons a t => exact ⟨a, by simp [hcase]⟩
  rcases hj with ⟨j, hj⟩
  have hneeds : needsNonSpace p = true := by
    have h1 := List.all_eq_true.mp commandPatterns_need_nonspace cp hcp
    exact List.all_eq_true.mp h1 p hp
  rcases ends_needs_nonspace p hneeds (toLowerList q.data) i j hj
    with ⟨k, c, hk, hcs⟩
  have hmem : c ∈ toLowerList q.data := List.getElem?_mem hk
  have := List.all_eq_true.mp (toLowerList_space q.data h) c hmem
  rw [this] at hcs
  cases hcs

theorem head?_filter_eq_find? {α : Type} (p : α → Bool) (l : List α) :
    (l.filter p).head? = l.find? p := by
  induction l with
  | nil => rfl
  | cons a t ih =>
    by_cases h : p a = true
    · simp [List.filter_cons, List.find?_cons, h]
    · simp only [Bool.not_eq_true] at h
      simp [List.filter_cons, List.find?_cons, h, ih]

theorem commit_all_confirmed (ctx : GitRepositoryState) (t m : String) :
    (generateCommitCommands ctx t m).all confirmedIfDestructive = true := by
  simp only [generateCommitCommands, List.all_append]
  repeat' split
  all_goals rfl

theorem push_all_confirmed (ctx : GitRepositoryState) :
    (generatePushCommands ctx).all confirmedIfDestructive = true := by
  simp only [generatePushCommands]
  repeat' split
  all_goals rfl

theorem pull_all_confirmed (ctx : GitRepositoryState) :
    (generatePullCommands ctx).all confirmedIfDestructive = true := by
  simp only [generatePullCommands, List.all_append]
  repeat' split
  all_goals rfl

theorem branch_all_confirmed (ctx : GitRepositoryState) (t q : String) :
    (generateBranchCommands ctx t q).all confirmedIfDestructive = true := by
  simp only [generateBranchCommands]
  repeat' split
  all_goals rfl

theorem merge_all_confirmed (ctx : GitRepositoryState) (t : String) :
    (generateMergeCommands ctx t).all confirmedIfDestructive = true := by
  simp only [generateMergeCommands, List.all_append]
  repeat' split
  all_goals rfl

theorem undo_all_confirmed (ctx : GitRepositoryState) (q : String) :
    (generateUndoCommands ctx q).all confirmedIfDestructive = true := by
  simp only [generateUndoCommands]
  repeat' split
  all_goals rfl

theorem stash_all_confirmed (ctx : GitRepositoryState) :
    (generateStashCommands ctx).all confirmedIfDestructive = true := by
  simp only [generateStashCommands]
  repeat' split
  all_goals rfl

theorem alt_flatMap_all_confirmed (cmds : List GitCommand) :
    (cmds.flatMap (fun cmd =>
      if cmd.risk_level == RiskLevel.destructive &&
         cmd.args.contains "reset" && cmd.args.contains "--hard"
      then [softResetAlternative] else [])).all confirmedIfDestructive = true := by
  induction cmds with
  | nil => rfl
  | cons a t ih =>
    simp only [List.flatMap_cons, List.all_append, ih, Bool.and_true]
    split
    · rfl
    · rfl

theorem alternatives_all_confirmed (cmds : List GitCommand)
    (ctx : GitRepositoryState) :
    ((generateAlternatives cmds ctx).getD []).all confirmedIfDestructive
      = true := by
  simp only [generateAlternatives]
  split
  · rfl
  · exact alt_flatMap_all_confirmed cmds

theorem generateCommands_all_confirmed (intent : Intent) (query : String)
    (ctx : GitRepositoryState) (aiResponse aiMessage : String) :
    (generateCommands intent query ctx aiResponse aiMessage).all
      confirmedIfDestructive = true := by
  unfold generateCommands
  repeat' split
  all_goals
    first
    | exact commit_all_confirmed ctx intent.target aiMessage
    | exact push_all_confirmed ctx
    | exact pull_all_confirmed ctx
    | exact branch_all_confirmed ctx intent.target query
    | exact merge_all_confirmed ctx intent.target
    | exact undo_all_confirmed ctx query
    | exact stash_all_confirmed ctx
    | rfl

/-- C1: for every command produced by the command synthesizer — over every
intent, snapshot, raw query and backend reply — and every alternative produced
by the risk auditor, a destructive risk level implies that the
requires-confirmation flag is set. -/
theorem destructive_implies_confirmation (intent : Intent) (query : String)
    (ctx : GitRepositoryState) (aiResponse aiMessage : String)
    (auditedCommands : List GitCommand) (auditCtx : GitRepositoryState) :
    (generateCommands intent query ctx aiResponse aiMessage).all
      confirmedIfDestructive = true ∧
    ((generateAlternatives auditedCommands auditCtx).getD []).all
      confirmedIfDestructive = true :=
  ⟨generateCommands_all_confirmed intent query ctx aiResponse aiMessage,
   alternatives_all_confirmed auditedCommands auditCtx⟩

theorem commit_sig_independent (ctx : GitRepositoryState) (t m₁ m₂ : String) :
    (generateCommitCommands ctx t m₁).map riskSig
      = (generateCommitCommands ctx t m₂).map riskSig := by
  simp only [generateCommitCommands, List.map_append]
  repeat' split
  all_goals rfl

theorem generateCommands_sig_independent (intent : Intent) (query : String)
    (ctx : GitRepositoryState) (r₁ m₁ r₂ m₂ : String) :
    (generateCommands intent query ctx r₁ m₁).map riskSig
      = (generateCommands intent query ctx r₂ m₂).map riskSig := by
  unfold generateCommands
  repeat' split
  all_goals
    first
    | exact commit_sig_independent ctx intent.target m₁ m₂
    | rfl

/-- C2: two-run noninterference over the text-generation backend — for every
query and snapshot, any two backend replies (for both the free-text response
and the commit message, including empty/failed ones) yield the same number of
suggested commands with the same risk levels and confirmation flags. -/
theorem backend_noninterference (query : String) (ctx : GitRepositoryState)
    (r₁ m₁ r₂ m₂ : String) :
    ((processUserQuery query ctx r₁ m₁).suggested_commands).map riskSig
      = ((processUserQuery query ctx r₂ m₂).suggested_commands).map riskSig ∧
    ((processUserQuery query ctx r₁ m₁).suggested_commands).length
      = ((processUserQuery query ctx r₂ m₂).suggested_commands).length := by
  have h : ((processUserQuery query ctx r₁ m₁).suggested_commands).map riskSig
      = ((processUserQuery query ctx r₂ m₂).suggested_commands).map riskSig :=
    generateCommands_sig_independent (analyzeIntent query) query ctx r₁ m₁ r₂ m₂
  refine ⟨h, ?_⟩
  have h2 := congrArg List.length h
  simpa using h2

/-- C3: classification is first-match-wins in the declared category order —
whenever the query matches patterns of more than one category, the classifier
returns the category that appears first in the declared order
(commit, push, pull, branch, merge, status, undo, stash). -/
theorem first_match_wins (query : String)
    (h : 2 ≤ (matchedCategories query).length) :
    (matchedCategories query).head? = some ((analyzeIntent query).action) := by
  have hf : (commandPatterns.filter (catMatches (toLowerList query.data))).head?
      = commandPatterns.find? (catMatches (toLowerList query.data)) :=
    head?_filter_eq_find? _ _
  unfold matchedCategories at h ⊢
  unfold analyzeIntent
  cases hfind : commandPatterns.find? (catMatches (toLowerList query.data)) with
  | none =>
    rw [hfind] at hf
    have hnil : commandPatterns.filter (catMatches (toLowerList query.data))
        = [] := by
      cases hcase : commandPatterns.filter (catMatches (toLowerList query.data)) with
      | nil => rfl
      | cons a t => rw [hcase] at hf; simp at hf
    rw [hnil] at h
    simp at h
  | some cp =>
    rw [List.head?_map, hf, hfind]
    simp [hfind]

/-- A witness for C3: "save my changes" matches both the commit and the stash
category; the classifier returns commit, the earlier one. -/
theorem first_match_wins_witness :
    2 ≤ (matchedCategories "save my changes").length ∧
    (matchedCategories "save my changes").head?
      = some ((analyzeIntent "save my changes").action) :=
  ⟨by decide, first_match_wins "save my changes" (by decide)⟩

/-- C4: when no pattern of any category matches — in particular for every
empty or whitespace-only query — the classifier returns the help action with
target "general" and the fixed fallback confidence, which is strictly lower
than the fixed confidence returned for every matched action. -/
theorem fallback_classification (query : String)
    (h : noPatternMatches query = true) :
    analyzeIntent query
      = { action := "help", target := "general",
          confidence := fallbackConfidence, raw_query := query } ∧
    fallbackConfidence < matchedConfidence ∧
    (∀ q' : String, noPatternMatches q' = false →
      (analyzeIntent q').confidence = matchedConfidence) ∧
    (∀ q' : String, q'.data.all isSpaceChar = true →
      noPatternMatches q' = true) := by
  refine ⟨?_, by norm_num [fallbackConfidence, matchedConfidence], ?_,
    fun q' hq' => whitespace_no_match q' hq'⟩
  · have hfind : commandPatterns.find? (catMatches (toLowerList query.data))
        = none := by
      rw [List.find?_eq_none]
      intro cp hcp
      have := List.all_eq_true.mp h cp hcp
      simp only [Bool.not_eq_true'] at this
      simp [this]
    simp only [analyzeIntent, hfind]
  · intro q' h'
    cases hfind : commandPatterns.find? (catMatches (toLowerList q'.data)) with
    | none =>
      rw [List.find?_eq_none] at hfind
      have : noPatternMatches q' = true := by
        rw [noPatternMatches, List.all_eq_true]
        intro cp hcp
        have := hfind cp hcp
        simp only [Bool.not_eq_true] at this
        simp [this]
      rw [this] at h'
      cases h'
    | some cp =>
      simp only [analyzeIntent, hfind]

/-- A witness for C4: the whitespace-only query and the empty query match no
pattern and classify as help with the fallback confidence; "commit" matches
and gets the higher matched confidence. -/
theorem fallback_classification_witness :
    noPatternMatches "   " = true ∧
    noPatternMatches "" = true ∧
    analyzeIntent "   "
      = { action := "help", target := "general",
          confidence := fallbackConfidence, raw_query := "   " } ∧
    analyzeIntent ""
      = { action := "help", target := "general",
          confidence := fallbackConfidence, raw_query := "" } ∧
    fallbackConfidence < matchedConfidence ∧
    noPatternMatches "commit" = false ∧
    (analyzeIntent "commit").confidence = matchedConfidence := by
  have h1 := fallback_classification "   " (by decide)
  have h2 := fallback_classification "" (by decide)
  exact ⟨h1.2.2.2 "   " (by decide), h2.2.2.2 "" (by decide), h1.1, h2.1,
         h1.2.1, by decide, h1.2.2.1 "commit" (by decide)⟩

/-- C5: on a snapshot with no staged files and some unstaged files, the commit
rule with the default placeholder target emits the safe "stage all" command
(`git add .`) first, followed by a commit command. -/
theorem commit_stages_first (ctx : GitRepositoryState) (aiMessage : String)
    (h1 : ctx.staged_files = []) (h2 : ctx.unstaged_files ≠ []) :
    ∃ c : GitCommand,
      generateCommitCommands ctx "changes" aiMessage = [stageAllCommand, c] ∧
      stageAllCommand.command = "git" ∧ stageAllCommand.args = ["add", "."] ∧
      stageAllCommand.risk_level = RiskLevel.safe ∧
      c.command = "git" ∧ c.args.head? = some "commit" := by
  have he : ctx.staged_files.isEmpty = true := by simp [h1]
  have hu : ctx.unstaged_files.isEmpty = false := by
    simpa [List.isEmpty_iff] using h2
  refine ⟨{ command := "git",
            args := ["commit", "-m", "\x22" ++ aiMessage ++ "\x22"],
            description := "Commit with AI-generated message: " ++ aiMessage,
            risk_level := .safe, requires_confirmation := false,
            explanation := none }, ?_, rfl, rfl, rfl, rfl, rfl⟩
  simp [generateCommitCommands, he, hu]

/-- A witness for C5: a snapshot with nothing staged and one modified file. -/
theorem commit_stages_first_witness :
    ∃ c : GitCommand,
      generateCommitCommands dirtyCtx "changes" "msg" = [stageAllCommand, c] ∧
      stageAllCommand.command = "git" ∧ stageAllCommand.args = ["add", "."] ∧
      stageAllCommand.risk_level = RiskLevel.safe ∧
      c.command = "git" ∧ c.args.head? = some "commit" :=
  commit_stages_first dirtyCtx "msg" (by decide) (by decide)

/-- C6: the push rule emits exactly one command — a plain safe push without
confirmation when the snapshot is ahead of its upstream, otherwise a moderate
upstream-setup push referencing the current branch that requires
confirmation. -/
theorem push_rule (ctx : GitRepositoryState) :
    ∃ c : GitCommand, generatePushCommands ctx = [c] ∧
      (if hasCommitsAhead ctx then
        c.args = ["push"] ∧ c.risk_level = RiskLevel.safe ∧
          c.requires_confirmation = false
      else
        c.args = ["push", "-u", "origin", ctx.current_branch] ∧
          ctx.current_branch ∈ c.args ∧
          c.risk_level = RiskLevel.moderate ∧
          c.requires_confirmation = true) := by
  by_cases h : hasCommitsAhead ctx = true
  · refine ⟨plainPushCommand ctx, by simp [generatePushCommands, h], ?_⟩
    rw [if_pos h]
    exact ⟨rfl, rfl, rfl⟩
  · simp only [Bool.not_eq_true] at h
    refine ⟨upstreamPushCommand ctx, by simp [generatePushCommands, h], ?_⟩
    rw [if_neg (by simp [h])]
    refine ⟨rfl, ?_, rfl, rfl⟩
    simp [upstreamPushCommand]

/-- Counterexample to C7 as stated: the query "undo my last commit" is
classified as commit (the `\bcommit\b` pattern of the commit category is tested
before any undo pattern), so on a clean snapshot processing yields no
suggested command at all — not one destructive hard reset — and no
alternatives. -/
theorem undo_last_commit_counterexample :
    (analyzeIntent "undo my last commit").action = "commit" ∧
    (processUserQuery "undo my last commit" cleanCtx "" "").suggested_commands
      = [] ∧
    (processUserQuery "undo my last commit" cleanCtx "" "").alternatives
      = none := by
  exact ⟨by decide, by decide, by decide⟩

/-- C7 (amended): for every query that is classified as undo and whose
lower-cased text contains "commit" but neither "keep" nor "save", processing
yields exactly one suggested command — the destructive hard reset of the last
commit, requiring confirmation — and the alternatives list of the auditor contains
exactly one moderate soft-reset command. -/
theorem undo_hard_reset (query : String) (ctx : GitRepositoryState)
    (aiResponse aiMessage : String)
    (h1 : (analyzeIntent query).action = "undo")
    (h2 : isSubstringOf "commit".data (toLowerList query.data) = true)
    (h3 : isSubstringOf "keep".data (toLowerList query.data) = false)
    (h4 : isSubstringOf "save".data (toLowerList query.data) = false) :
    (processUserQuery query ctx aiResponse aiMessage).suggested_commands
      = [hardResetCommand] ∧
    hardResetCommand.risk_level = RiskLevel.destructive ∧
    hardResetCommand.requires_confirmation = true ∧
    hardResetCommand.args = ["reset", "--hard", "HEAD~1"] ∧
    (processUserQuery query ctx aiResponse aiMessage).alternatives
      = some [softResetAlternative] ∧
    softResetAlternative.risk_level = RiskLevel.moderate ∧
    softResetAlternative.args = ["reset", "--soft", "HEAD~1"] := by
  have hcmds : generateCommands (analyzeIntent query) query ctx aiResponse
      aiMessage = [hardResetCommand] := by
    unfold generateCommands
    rw [h1]
    simp only [generateUndoCommands, h2, h3, h4]
    rfl
  refine ⟨hcmds, rfl, rfl, rfl, ?_, rfl, rfl⟩
  show generateAlternatives (generateCommands (analyzeIntent query) query ctx
    aiResponse aiMessage) ctx = some [softResetAlternative]
  rw [hcmds]
  rfl

/-- A witness for the amended C7: "rollback the last commits" is classified as
undo, mentions "commit", and mentions neither "keep" nor "save". -/
theorem undo_hard_reset_witness :
    (processUserQuery "rollback the last commits" cleanCtx "" "").suggested_commands = [hardResetCommand] ∧
    hardResetCommand.risk_level = RiskLevel.destructive ∧
    hardResetCommand.requires_confirmation = true ∧
    hardResetCommand.args = ["reset", "--hard", "HEAD~1"] ∧
    (processUserQuery "rollback the last commits" cleanCtx "" "").alternatives
      = some [softResetAlternative] ∧
    softResetAlternative.risk_level = RiskLevel.moderate ∧
    softResetAlternative.args = ["reset", "--soft", "HEAD~1"] :=
  undo_hard_reset "rollback the last commits" cleanCtx "" ""
    (by decide) (by decide) (by decide) (by decide)

/-- C8: whenever the conflicted-files set of the snapshot is present and non-empty,
the warnings output of the auditor is present and non-empty and contains the
unresolved-conflicts warning, whatever commands were synthesized. -/
theorem conflicts_always_warn (cmds : List GitCommand)
    (ctx : GitRepositoryState) (h : conflictedNonempty ctx = true) :
    ∃ l, checkWarnings cmds ctx = some l ∧ conflictsWarning ∈ l ∧ l ≠ [] := by
  unfold checkWarnings
  simp only [h, if_true]
  set w1 := if hasDestructiveCommand cmds then [destructiveWarning] else []
  set w2 := if !ctx.is_clean && hasPushCommand cmds then [uncommittedWarning]
    else []
  have hmem : conflictsWarning ∈ w1 ++ w2 ++ [conflictsWarning] := by
    simp
  have hne : (w1 ++ w2 ++ [conflictsWarning]) ≠ [] := by
    intro hnil
    rw [hnil] at hmem
    exact (List.not_mem_nil _) hmem
  have hie : (w1 ++ w2 ++ [conflictsWarning]).isEmpty = false := by
    cases hcase : w1 ++ w2 ++ [conflictsWarning] with
    | nil => exact absurd hcase hne
    | cons a t => rfl
  rw [if_neg (by simp [hie])]
  exact ⟨_, rfl, hmem, hne⟩

/-- A witness for C8: one conflicted file, no commands. -/
theorem conflicts_always_warn_witness :
    ∃ l, checkWarnings []
        { cleanCtx with conflicted_files := some ["x.txt"] } = some l ∧
      conflictsWarning ∈ l ∧ l ≠ [] :=
  conflicts_always_warn [] { cleanCtx with conflicted_files := some ["x.txt"] }
    (by decide)

/-- Counterexample to C9 as stated: with no triggering rule the auditor
returns Python `None` (here `none`), not an empty-but-present list. -/
theorem warnings_none_counterexample : checkWarnings [] cleanCtx = none := by
  decide

/-- C9 (amended): the warnings result of the auditor is absent (`None`) exactly
when no warning rule triggers, and otherwise is a present, non-empty list; an
empty-but-present list is never returned. -/
theorem warnings_none_or_nonempty (cmds : List GitCommand)
    (ctx : GitRepositoryState) :
    (checkWarnings cmds ctx = none ∨
      ∃ l, checkWarnings cmds ctx = some l ∧ 0 < l.length) ∧
    (checkWarnings cmds ctx = none ↔
      hasDestructiveCommand cmds = false ∧
      (!ctx.is_clean && hasPushCommand cmds) = false ∧
      conflictedNonempty ctx = false) := by
  unfold checkWarnings
  cases hd : hasDestructiveCommand cmds <;>
    cases hp : (!ctx.is_clean && hasPushCommand cmds) <;>
      cases hc : conflictedNonempty ctx <;>
        simp [hd, hp, hc]

/-- C10: on a snapshot with unstaged or untracked files and a dirty tree,
processing a stash-classified query emits the stash-push command, whose
argument list contains the literal token "push"; the auditor therefore counts
it as push-like and adds the uncommitted-changes advisory warning. -/
theorem stash_advisory_warning (query : String) (ctx : GitRepositoryState)
    (aiResponse aiMessage : String)
    (h1 : (analyzeIntent query).action = "stash")
    (h2 : ctx.is_clean = false)
    (h3 : ctx.unstaged_files ≠ [] ∨ ctx.untracked_files ≠ []) :
    (processUserQuery query ctx aiResponse aiMessage).suggested_commands
      = [stashPushCommand] ∧
    stashPushCommand.args.contains "push" = true ∧
    ∃ l, (processUserQuery query ctx aiResponse aiMessage).warnings = some l ∧
      uncommittedWarning ∈ l := by
  have hcond : (!ctx.unstaged_files.isEmpty || !ctx.untracked_files.isEmpty)
      = true := by
    rcases h3 with h | h
    · have : ctx.unstaged_files.isEmpty = false := by
        simpa [List.isEmpty_iff] using h
      simp [this]
    · have : ctx.untracked_files.isEmpty = false := by
        simpa [List.isEmpty_iff] using h
      simp [this]
  have hcmds : generateCommands (analyzeIntent query) query ctx aiResponse
      aiMessage = [stashPushCommand] := by
    unfold generateCommands
    rw [h1]
    show generateStashCommands ctx = [stashPushCommand]
    simp only [generateStashCommands, hcond, if_true]
  refine ⟨hcmds, rfl, ?_⟩
  show ∃ l, checkWarnings (generateCommands (analyzeIntent query) query ctx
    aiResponse aiMessage) ctx = some l ∧ uncommittedWarning ∈ l
  rw [hcmds]
  have hdest : hasDestructiveCommand [stashPushCommand] = false := rfl
  have hpush : hasPushCommand [stashPushCommand] = true := rfl
  by_cases hc : conflictedNonempty ctx = true
  · simp [checkWarnings, hdest, hpush, h2, hc]
  · simp only [Bool.not_eq_true] at hc
    simp [checkWarnings, hdest, hpush, h2, hc]

/-- A witness for C10: "stash my changes" on a dirty snapshot with a modified
and an untracked file. -/
theorem stash_advisory_warning_witness :
    (processUserQuery "stash my changes" dirtyCtx "" "").suggested_commands
      = [stashPushCommand] ∧
    stashPushCommand.args.contains "push" = true ∧
    ∃ l, (processUserQuery "stash my changes" dirtyCtx "" "").warnings
        = some l ∧ uncommittedWarning ∈ l :=
  stash_advisory_warning "stash my changes" dirtyCtx "" ""
    (by decide) (by decide) (Or.inl (by decide))
